import Mathlib

/-!
Verification development for the minecraft-server-manager supervision core.

The TypeScript sources are shallowly embedded: JS Buffers and the byte
representations of JS strings become `List Nat` (one entry per byte, or per
UTF-16 code unit where noted), JS numbers become `Nat`/`Int` with explicit
wrap-around where the code relies on 32-bit coercions, timestamps are `Nat`
milliseconds passed explicitly, and the outcome of asynchronous calls is an
explicit argument.  Event emission is modelled by returning the list of
emitted events.
-/

namespace MCSM

/-- Bytes of a JS Buffer (or the byte representation of a JS string). -/
abbrev Bytes := List Nat

/-! ## Query client (src/src/protocols/query.ts) -/

/-- QueryClient.readNullTerminatedString (query.ts 1031-1043): the bytes from
`offset` up to (excluding) the first NUL byte, the rest of the buffer when no
NUL occurs, and empty when `offset` is at or past the end. -/
def readNullTerminatedString (buffer : Bytes) (offset : Nat) : Bytes :=
  if buffer.length ≤ offset then []
  else (buffer.drop offset).takeWhile (fun b => b ≠ 0)

/-- Value of a run of ASCII decimal digit bytes. -/
def digitsVal (s : Bytes) : Nat := s.foldl (fun a c => a * 10 + (c - 48)) 0

/-- JS parseInt(s, 10): skip leading whitespace, an optional sign, then the
longest leading run of decimal digits; NaN (here `none`) when that run is
empty. -/
def jsParseInt (s : Bytes) : Option Int :=
  let s1 := s.dropWhile (fun c => c = 32 || c = 9 || c = 10 || c = 13)
  let signRest : Bool × Bytes :=
    match s1 with
    | 45 :: rest => (true, rest)
    | 43 :: rest => (false, rest)
    | _ => (false, s1)
  let ds := signRest.2.takeWhile (fun c => 48 ≤ c && c ≤ 57)
  if ds.isEmpty then none
  else some (if signRest.1 then -(digitsVal ds : Int) else (digitsVal ds : Int))

/-- The ServerStats interface of query.ts; fields are optional exactly as in
the partial results built by parseBasicStats. -/
structure ServerStats where
  online : Bool
  motd : Option Bytes := none
  gameType : Option Bytes := none
  map : Option Bytes := none
  numPlayers : Option Int := none
  maxPlayers : Option Int := none
  hostPort : Option Nat := none
  hostIp : Option Bytes := none
deriving DecidableEq

/-- Buffer.readUInt16LE. -/
def readUInt16LE (data : Bytes) (offset : Nat) : Nat :=
  data.getD offset 0 + 256 * data.getD (offset + 1) 0

/-- QueryClient.parseBasicStats (query.ts 826-948).  The two throw sites (the
initial length checks) are caught by the surrounding try/catch, which returns
the minimal online-only result; every later guard returns a partial result
directly.  The isNaN fallback to 0 is `(jsParseInt _).getD 0`. -/
def parseBasicStats (data : Bytes) : ServerStats :=
  if data.length < 5 then { online := true }
  else if data.length ≤ 5 then { online := true }
  else
    let motd := readNullTerminatedString data 5
    let o1 := 5 + motd.length + 1
    if data.length ≤ o1 then { online := true, motd := some motd }
    else
      let gameType := readNullTerminatedString data o1
      let o2 := o1 + gameType.length + 1
      if data.length ≤ o2 then
        { online := true, motd := some motd, gameType := some gameType }
      else
        let map := readNullTerminatedString data o2
        let o3 := o2 + map.length + 1
        if data.length ≤ o3 then
          { online := true, motd := some motd, gameType := some gameType,
            map := some map }
        else
          let numPlayersStr := readNullTerminatedString data o3
          let o4 := o3 + numPlayersStr.length + 1
          let numPlayers : Int := (jsParseInt numPlayersStr).getD 0
          if data.length ≤ o4 then
            { online := true, motd := some motd, gameType := some gameType,
              map := some map, numPlayers := some numPlayers }
          else
            let maxPlayersStr := readNullTerminatedString data o4
            let o5 := o4 + maxPlayersStr.length + 1
            let maxPlayers : Int := (jsParseInt maxPlayersStr).getD 0
            if data.length < o5 + 2 then
              { online := true, motd := some motd, gameType := some gameType,
                map := some map, numPlayers := some numPlayers,
                maxPlayers := some maxPlayers }
            else
              let hostPort := readUInt16LE data o5
              let o6 := o5 + 2
              if data.length ≤ o6 then
                { online := true, motd := some motd, gameType := some gameType,
                  map := some map, numPlayers := some numPlayers,
                  maxPlayers := some maxPlayers, hostPort := some hostPort }
              else
                { online := true, motd := some motd, gameType := some gameType,
                  map := some map, numPlayers := some numPlayers,
                  maxPlayers := some maxPlayers, hostPort := some hostPort,
                  hostIp := some (readNullTerminatedString data o6) }

/-- The later fields of a parseBasicStats result are only present when all
earlier ones are: the populated fields form a prefix of the field order. -/
def fieldsFormChain (r : ServerStats) : Prop :=
  (r.gameType.isSome → r.motd.isSome) ∧
  (r.map.isSome → r.gameType.isSome) ∧
  (r.numPlayers.isSome → r.map.isSome) ∧
  (r.maxPlayers.isSome → r.numPlayers.isSome) ∧
  (r.hostPort.isSome → r.maxPlayers.isSome) ∧
  (r.hostIp.isSome → r.hostPort.isSome)

/-! ## State manager (src/src/services/server-state.ts) -/

/-- The four values of the ServerStatus union type. -/
inductive ServerStatus
  | offline
  | starting
  | online
  | stopping
deriving DecidableEq

/-- The ServerState interface.  Date values are Nat milliseconds; uptime and
emptyDuration are Int because Math.floor of a JS difference can be negative. -/
structure ServerState where
  status : ServerStatus
  stats : Option ServerStats := none
  lastCheck : Nat := 0
  startTime : Option Nat := none
  stopTime : Option Nat := none
  uptime : Option Int := none
  playerPeakCount : Option Int := none
  emptyTime : Option Nat := none
  emptyDuration : Option Int := none
  lastStatusChange : Option Nat := none
  lastErrorCount : Nat := 0
  startupTimeoutExpired : Bool := false
deriving DecidableEq

/-- The queryCooldown map: one lastCheck slot per status key. -/
structure Cooldowns where
  offline : Nat := 0
  starting : Nat := 0
  online : Nat := 0
  stopping : Nat := 0
deriving DecidableEq

def Cooldowns.get (c : Cooldowns) : ServerStatus → Nat
  | .offline => c.offline
  | .starting => c.starting
  | .online => c.online
  | .stopping => c.stopping

def Cooldowns.put (c : Cooldowns) : ServerStatus → Nat → Cooldowns
  | .offline, v => { c with offline := v }
  | .starting, v => { c with starting := v }
  | .online, v => { c with online := v }
  | .stopping, v => { c with stopping := v }

/-- Instance fields of ServerStateManager that the polling logic mutates. -/
structure StateMgr where
  state : ServerState
  consecutiveErrors : Nat := 0
  inactivityTimeoutMins : Nat := 0
  queryCooldown : Cooldowns := {}
deriving DecidableEq

/-- The manager state built by the ServerStateManager constructor. -/
def StateMgr.init : StateMgr :=
  { state := { status := .offline, lastCheck := 0, lastErrorCount := 0 } }

/-- Events emitted by ServerStateManager. -/
inductive SMEvent
  | statusChanged
  | serverEmpty
  | inactivityTimeout
  | serverActive
  | tooManyErrors
deriving DecidableEq

/-- Outcome of one queryClient.getBasicStats() call as seen by checkState:
either a resolved ServerStats value or a rejected promise. -/
inductive ProbeOutcome
  | ok (stats : ServerStats)
  | err
deriving DecidableEq

/-- Math.floor((now - t) / 1000) with JS signed subtraction. -/
def floorDiffSec (now t : Nat) : Int := Int.fdiv ((now : Int) - (t : Int)) 1000

/-- ServerStateManager.setServerStatus (server-state.ts 131-172). -/
def setServerStatus (m : StateMgr) (status : ServerStatus) (now : Nat) :
    StateMgr × List SMEvent :=
  let prev := m.state.status
  if status = prev then (m, [])
  else
    let s := { m.state with
      status := status, lastStatusChange := some now, lastErrorCount := 0 }
    let s := if status ≠ ServerStatus.starting then
        { s with startupTimeoutExpired := false } else s
    let s :=
      if status = ServerStatus.starting ∧ prev = ServerStatus.offline then
        { s with
          startTime := some now,
          stopTime := none,
          uptime := some 0,
          playerPeakCount := some 0,
          emptyTime := none,
          emptyDuration := none }
      else if status = ServerStatus.stopping ∧ prev = ServerStatus.online then
        { s with stopTime := some now }
      else if status = ServerStatus.offline then
        { s with
          stopTime := some (s.stopTime.getD now),
          uptime := none,
          emptyTime := none,
          emptyDuration := none }
      else s
    let s := { s with lastCheck := now }
    ({ m with state := s, consecutiveErrors := 0 }, [SMEvent.statusChanged])

/-- ServerStateManager.shouldPerformQuery (server-state.ts 177-221).
`r30`/`r50` are the two Math.random draws (`Math.random() < 0.3` during the
startup grace period and `Math.random() < 0.5` while stopping).  Returns the
decision together with the mutated manager (cooldown slot, and the
startupTimeoutExpired flag set when startup exceeded 3 minutes). -/
def shouldPerformQuery (m : StateMgr) (now : Nat) (r30 r50 : Bool) :
    Bool × StateMgr :=
  let currentStatus := m.state.status
  if now - m.queryCooldown.get currentStatus < 5000 then (false, m)
  else
    let m := { m with queryCooldown := m.queryCooldown.put currentStatus now }
    match currentStatus, m.state.startTime with
    | .starting, some t =>
      if now - t < 60000 then
        (if 10000 < now - t then r30 else false, m)
      else
        let m :=
          if 180000 < now - t ∧ m.state.startupTimeoutExpired = false then
            { m with state := { m.state with startupTimeoutExpired := true } }
          else m
        (true, m)
    | .stopping, _ => (r50, m)
    | _, _ => (true, m)

/-- The part of ServerStateManager.checkState after the query resolves or
rejects (server-state.ts 237-428): the try body from the getBasicStats call
on, plus the catch block for a rejected probe. -/
def processProbe (m : StateMgr) (probe : ProbeOutcome) (now : Nat) :
    StateMgr × List SMEvent :=
  match probe with
  | .ok stats =>
    let prev := m.state.status
    let m := { m with
      consecutiveErrors := 0,
      state := { m.state with lastErrorCount := 0 } }
    if stats.online then
      let stepPair :=
        if prev = ServerStatus.starting ∨ prev = ServerStatus.offline then
          let s := { m.state with
            status := ServerStatus.online,
            lastStatusChange := some now }
          ({ s with startTime := some (s.startTime.getD now) },
            [SMEvent.statusChanged])
        else (m.state, ([] : List SMEvent))
      let s := { stepPair.1 with stats := some stats }
      let up : Option Int :=
        match s.startTime with
        | some t => some (floorDiffSec now t)
        | none => s.uptime
      let s := { s with uptime := up }
      let currentPlayers : Int := stats.numPlayers.getD 0
      let peakFalsy : Bool :=
        match s.playerPeakCount with
        | none => true
        | some p => decide (p = 0) || decide (p < currentPlayers)
      let peak : Option Int :=
        if peakFalsy then some currentPlayers else s.playerPeakCount
      let s := { s with playerPeakCount := peak }
      if currentPlayers = 0 then
        match s.emptyTime with
        | none =>
          ({ m with state :=
              { s with emptyTime := some now, emptyDuration := some 0 } },
            stepPair.2 ++ [SMEvent.serverEmpty])
        | some t =>
          let dur := floorDiffSec now t
          ({ m with state := { s with emptyDuration := some dur } },
            stepPair.2 ++
              if 0 < m.inactivityTimeoutMins ∧
                  (m.inactivityTimeoutMins * 60 : Int) ≤ dur then
                [SMEvent.inactivityTimeout]
              else [])
      else
        if s.emptyTime.isSome then
          ({ m with state :=
              { s with emptyTime := none, emptyDuration := none } },
            stepPair.2 ++ [SMEvent.serverActive])
        else ({ m with state := s }, stepPair.2)
    else
      if prev = ServerStatus.starting then
        if m.state.startupTimeoutExpired then
          ({ m with state := { m.state with
              status := ServerStatus.offline,
              stats := none,
              lastStatusChange := some now } },
            [SMEvent.statusChanged])
        else (m, [])
      else if prev = ServerStatus.stopping then
        if (match m.state.lastStatusChange with
            | some t => decide (120000 < now - t)
            | none => false) then
          ({ m with state := { m.state with
              status := ServerStatus.offline,
              stats := none,
              lastStatusChange := some now } },
            [SMEvent.statusChanged])
        else (m, [])
      else if prev = ServerStatus.online then
        let errs := m.consecutiveErrors + 1
        let m := { m with consecutiveErrors := errs }
        if 3 ≤ errs then
          ({ m with state := { m.state with
              status := ServerStatus.offline,
              stats := none,
              stopTime := some now,
              lastStatusChange := some now,
              uptime := none,
              emptyTime := none,
              emptyDuration := none } },
            [SMEvent.statusChanged])
        else (m, [])
      else (m, [])
  | .err =>
    let errs := m.consecutiveErrors + 1
    let m := { m with
      consecutiveErrors := errs,
      state := { m.state with lastErrorCount := errs } }
    if 5 ≤ errs then
      match m.state.status with
      | .online => (m, if 10 ≤ errs then [SMEvent.tooManyErrors] else [])
      | .starting =>
        if m.state.startupTimeoutExpired then
          ({ m with state := { m.state with
              status := ServerStatus.offline,
              lastStatusChange := some now } }, [SMEvent.statusChanged])
        else (m, [])
      | .stopping =>
        match m.state.lastStatusChange with
        | some t =>
          if 60000 < now - t then
            ({ m with state := { m.state with
                status := ServerStatus.offline,
                lastStatusChange := some now } }, [SMEvent.statusChanged])
          else (m, [])
        | none => (m, [])
      | .offline => (m, [])
    else (m, [])

/-- ServerStateManager.checkState (server-state.ts 226-429): stamp lastCheck,
consult shouldPerformQuery, and when it allows the query, process the probe
outcome. -/
def checkState (m : StateMgr) (probe : ProbeOutcome) (now : Nat)
    (r30 r50 : Bool) : StateMgr × List SMEvent :=
  let m := { m with state := { m.state with lastCheck := now } }
  let gm := shouldPerformQuery m now r30 r50
  if gm.1 then processProbe gm.2 probe now else (gm.2, [])

/-- The probe-driven edges claimed in C1 (the edges of spec §4.2 that
checkState may take, explicit overrides excluded). -/
def claimedProbeEdge (a b : ServerStatus) : Prop :=
  (a, b) ∈ ([(.offline, .starting), (.starting, .online), (.starting, .offline),
    (.online, .stopping), (.online, .offline), (.stopping, .offline)] :
    List (ServerStatus × ServerStatus))

/-- The probe-driven edges the code actually takes: the claimed ones plus
offline→online (a successful probe while the status is offline immediately
marks the server online). -/
def amendedProbeEdge (a b : ServerStatus) : Prop :=
  claimedProbeEdge a b ∨ (a = ServerStatus.offline ∧ b = ServerStatus.online)

instance (a b : ServerStatus) : Decidable (claimedProbeEdge a b) := by
  unfold claimedProbeEdge; exact inferInstance

instance (a b : ServerStatus) : Decidable (amendedProbeEdge a b) := by
  unfold amendedProbeEdge; exact instDecidableOr

/-! ## Process manager (src/src/services/server-process.ts) -/

/-- A ChildProcess handle as the manager observes it. -/
structure Proc where
  killed : Bool := false
  exitCode : Option Int := none
  pid : Option Nat := some 1
deriving DecidableEq

/-- Instance fields of ServerProcessManager. -/
structure PMState where
  serverProcess : Option Proc := none
  isShuttingDown : Bool := false
  tempFiles : List Nat := []
deriving DecidableEq

/-- ServerProcessManager.isRunning (server-process.ts 37-39). -/
def isRunning (s : PMState) : Bool :=
  match s.serverProcess with
  | some p => !p.killed
  | none => false

/-- Result of one ServerProcessManager.stop call: the resolved Bool, the
manager state once the call's work has settled, and whether the stop command
was written and the forceKill path entered. -/
structure StopOutcome where
  result : Bool
  st : PMState
  wroteStopCommand : Bool
  forceKilled : Bool
deriving DecidableEq

/-- ServerProcessManager.stop (server-process.ts 80-127).  `closesInTime`
abstracts whether the child's close event fires within the 30 s timeout; when
it does not, stop escalates to forceKill, whose finalizeKill clears the
handle, the shutdown flag and the temp files. -/
def stop (s : PMState) (closesInTime : Bool) : StopOutcome :=
  if !(isRunning s) || s.serverProcess.isNone then
    { result := true, st := { s with isShuttingDown := false },
      wroteStopCommand := false, forceKilled := false }
  else
    let s1 := { s with isShuttingDown := true }
    if closesInTime then
      { result := true,
        st := { s1 with
          serverProcess := none,
          isShuttingDown := false,
          tempFiles := [] },
        wroteStopCommand := true, forceKilled := false }
    else
      { result := true,
        st := {
          serverProcess := none,
          isShuttingDown := false,
          tempFiles := [] },
        wroteStopCommand := true, forceKilled := true }

/-- Errors thrown by ServerProcessManager.start. -/
inductive StartErr
  | directoryNotFound
  | executableNotFound
deriving DecidableEq

instance : DecidableEq (Except StartErr Bool) := fun a b =>
  match a, b with
  | .error x, .error y =>
    if h : x = y then isTrue (by rw [h])
    else isFalse (by intro hc; cases hc; exact h rfl)
  | .ok x, .ok y =>
    if h : x = y then isTrue (by rw [h])
    else isFalse (by intro hc; cases hc; exact h rfl)
  | .error _, .ok _ => isFalse (by intro hc; cases hc)
  | .ok _, .error _ => isFalse (by intro hc; cases hc)

/-- Result of one ServerProcessManager.start call. -/
structure StartOutcome where
  result : Except StartErr Bool
  st : PMState
  spawned : Bool
deriving DecidableEq

/-- ServerProcessManager.start (server-process.ts 51-75) with
startWithScript/startWithJava (243-313).  Filesystem checks and the spawned
handle are oracles; the script path records its temporary launcher file. -/
def start (s : PMState) (dirExists useScript scriptExists jarExists : Bool)
    (newProc : Proc) (tempFile : Nat) : StartOutcome :=
  if isRunning s then { result := .ok true, st := s, spawned := false }
  else if !dirExists then
    { result := .error .directoryNotFound, st := s, spawned := false }
  else if useScript then
    if !scriptExists then
      { result := .error .executableNotFound, st := s, spawned := false }
    else
      { result := .ok true,
        st := { s with
          serverProcess := some newProc,
          tempFiles := s.tempFiles ++ [tempFile] },
        spawned := true }
  else if !jarExists then
    { result := .error .executableNotFound, st := s, spawned := false }
  else
    { result := .ok true, st := { s with serverProcess := some newProc },
      spawned := true }

/-! ## RCON client (src/src/protocols/rcon.ts) -/

/-- The pendingResponses Map: request id to accumulated response buffer (the
resolve/reject callbacks and timers are modelled by the emitted events).  A JS
Map preserves insertion order and updates entries in place. -/
abbrev PendingMap := List (Int × Bytes)

def mapLookup (id : Int) : PendingMap → Option Bytes
  | [] => none
  | (k, v) :: rest => if k = id then some v else mapLookup id rest

def mapSet (id : Int) (v : Bytes) : PendingMap → PendingMap
  | [] => [(id, v)]
  | (k, w) :: rest => if k = id then (k, v) :: rest else (k, w) :: mapSet id v rest

def mapErase (id : Int) : PendingMap → PendingMap
  | [] => []
  | (k, w) :: rest => if k = id then rest else (k, w) :: mapErase id rest

/-- Resolution of a pending exchange by the response handler. -/
inductive RconEvent
  | resolved (id : Int) (value : Bytes)
deriving DecidableEq

/-- The per-packet body of RconClient.handleResponse (rcon.ts 328-352): type
0 is RESPONSE_VALUE, type 2 is AUTH_RESPONSE; an empty body or an auth
response completes the exchange, a nonempty RESPONSE_VALUE fragment is
appended to the pending buffer. -/
def handlePacket (st : PendingMap) (id ty : Int) (body : Bytes) :
    PendingMap × List RconEvent :=
  if ty = 0 ∨ ty = 2 then
    match mapLookup id st with
    | some buffer =>
      let newBuffer := buffer ++ body
      if body.length = 0 ∨ ty = 2 then
        (mapErase id st, [RconEvent.resolved id newBuffer])
      else (mapSet id newBuffer st, [])
    | none => (st, [])
  else (st, [])

/-- Buffer.readUInt32LE as used to model readInt32LE. -/
def readUInt32LE (data : Bytes) (offset : Nat) : Nat :=
  let d := data.drop offset
  d.getD 0 0 + 256 * d.getD 1 0 + 65536 * d.getD 2 0 + 16777216 * d.getD 3 0

/-- Buffer.readInt32LE: the unsigned 32-bit read, re-interpreted as int32. -/
def readInt32LE (data : Bytes) (offset : Nat) : Int :=
  let u := readUInt32LE data offset
  if u < 2 ^ 31 then (u : Int) else (u : Int) - 2 ^ 32

/-- The packet-scanning while loop of RconClient.handleResponse (rcon.ts
302-356).  The fuel argument bounds the iteration count (the JS loop would
not terminate on a crafted negative size; on well-formed packets every
iteration consumes at least 14 bytes, so data.length + 1 fuel is plenty). -/
def handleResponseLoop (data : Bytes) :
    Nat → Nat → PendingMap → List RconEvent → PendingMap × List RconEvent
  | 0, _, st, evs => (st, evs)
  | fuel + 1, offset, st, evs =>
    if data.length < offset + 4 then (st, evs)
    else
      let size := readInt32LE data offset
      if (data.length : Int) < (offset : Int) + 4 + size then (st, evs)
      else
        let id := readInt32LE data (offset + 4)
        let ty := readInt32LE data (offset + 8)
        let bodyEnd : Int := (offset : Int) + 4 + size - 2
        let body := (data.drop (offset + 12)).take (bodyEnd - (offset + 12 : Int)).toNat
        let stEv := handlePacket st id ty body
        handleResponseLoop data fuel ((offset : Int) + 4 + size).toNat stEv.1
          (evs ++ stEv.2)

/-- RconClient.handleResponse (rcon.ts 299-360) on one data chunk. -/
def handleResponse (data : Bytes) (st : PendingMap) :
    PendingMap × List RconEvent :=
  handleResponseLoop data (data.length + 1) 0 st []

/-- Little-endian 4-byte encoding written by Buffer.writeInt32LE for the
nonnegative values the client uses. -/
def le4 (n : Nat) : Bytes :=
  [n % 256, n / 256 % 256, n / 65536 % 256, n / 16777216 % 256]

/-- RconClient.createPacket (rcon.ts 365-389):
[int32 size][int32 requestId][int32 type][body][0, 0], size little-endian and
equal to body length + 10. -/
def createPacket (id ty : Nat) (body : Bytes) : Bytes :=
  le4 (body.length + 10) ++ (le4 id ++ (le4 ty ++ (body ++ [0, 0])))

/-- Deliver a sequence of data chunks to handleResponse, accumulating the
resolutions. -/
def deliverPackets (packets : List Bytes) (st : PendingMap) :
    PendingMap × List RconEvent :=
  packets.foldl
    (fun acc pkt =>
      let r := handleResponse pkt acc.1
      (r.1, acc.2 ++ r.2))
    (st, [])

/-- What the sendPacket timeout callback does to the caller's promise. -/
inductive TimeoutOutcome
  | resolvedWithData (value : Bytes)
  | rejectedTimedOut
deriving DecidableEq

/-- The 10 s timeout callback installed by RconClient.sendPacket (rcon.ts
261-273): if the exchange is still pending, remove it, then resolve with the
accumulated partial data when any exists and reject otherwise. -/
def sendPacketTimeout (st : PendingMap) (id : Int) :
    PendingMap × Option TimeoutOutcome :=
  match mapLookup id st with
  | some buffer =>
    let st' := mapErase id st
    if 0 < buffer.length then (st', some (.resolvedWithData buffer))
    else (st', some .rejectedTimedOut)
  | none => (st, none)

/-! ## Wake listener (src/src/services/server-listener.ts) -/

/-- UTF-16 code units of a JS string. -/
abbrev UStr := List Nat

/-- Code units of the decimal representation of a number (template literal). -/
def natToUnits (n : Nat) : UStr := (Nat.repr n).data.map Char.toNat

/-- The legacy status string of handleLegacyPing (server-listener.ts
257-264): the six fields joined with the NUL character. -/
def legacyResponseString (version motd : UStr) (maxPlayers : Nat) : UStr :=
  List.intercalate [0]
    [[0xA7, 0x31], [0x31, 0x32, 0x37], version, motd, [0x30],
      natToUnits maxPlayers]

/-- Buffer.alloc: zero-filled. -/
def bufAlloc (n : Nat) : Bytes := List.replicate n 0

/-- Buffer.writeUInt8. -/
def bufWriteU8 (buf : Bytes) (v off : Nat) : Bytes := buf.set off v

/-- Buffer.writeUInt16BE (values below 2^16 in every use here). -/
def bufWriteU16BE (buf : Bytes) (v off : Nat) : Bytes :=
  (buf.set off (v / 256 % 256)).set (off + 1) (v % 256)

/-- Write UTF-16LE code units at consecutive byte pairs. -/
def writeUnitsLE (buf : Bytes) (units : UStr) (off : Nat) : Bytes :=
  match units with
  | [] => buf
  | u :: us =>
    writeUnitsLE ((buf.set off (u % 256)).set (off + 1) (u / 256 % 256)) us
      (off + 2)

/-- Buffer.write(s, off, utf16le): Node writes only as many whole 2-byte code
units as fit between off and the end of the buffer. -/
def bufWriteUtf16le (buf : Bytes) (s : UStr) (off : Nat) : Bytes :=
  writeUnitsLE buf (s.take ((buf.length - off) / 2)) off

/-- MinecraftServerListener.handleLegacyPing (server-listener.ts 254-279):
the bytes written to the socket — a buffer of response.length + 3 bytes
holding 0xFF, the 2-byte big-endian character count, and the UTF-16LE payload
as far as it fits. -/
def handleLegacyPing (version motd : UStr) (maxPlayers : Nat) : Bytes :=
  let response := legacyResponseString version motd maxPlayers
  let buf := bufAlloc (response.length + 3)
  let buf := bufWriteU8 buf 0xFF 0
  let buf := bufWriteU16BE buf response.length 1
  bufWriteUtf16le buf response 3

/-- UTF-16LE byte sequence of a full string. -/
def utf16leBytes (s : UStr) : Bytes :=
  s.foldr (fun u acc => u % 256 :: u / 256 % 256 :: acc) []

/-- Modelled from the spec (claim C9): 0xFF, a 2-byte big-endian length, then
the UTF-16LE payload of the six fields joined by the pipe delimiter. -/
def claimedLegacyPingResponse (version motd : UStr) (maxPlayers : Nat) : Bytes :=
  let payload := List.intercalate [0x7C]
    [[0xA7, 0x31], [0x31, 0x32, 0x37], version, motd, [0x30],
      natToUnits maxPlayers]
  0xFF :: (payload.length / 256 % 256) :: (payload.length % 256) ::
    utf16leBytes payload

/-- The do-while loop body of MinecraftServerListener.writeVarInt
(server-listener.ts 284-295).  `value & 0x7f` and `value >>>= 7` coerce to 32
bits, so the loop effectively runs on value mod 2^32, which takes at most 5
iterations of fuel. -/
def writeVarIntAux : Nat → Nat → Bytes
  | 0, _ => []
  | fuel + 1, v =>
    if v / 128 = 0 then [v % 128]
    else (v % 128 + 128) :: writeVarIntAux fuel (v / 128)

/-- MinecraftServerListener.writeVarInt: the bytes the loop writes. -/
def writeVarInt (value : Nat) : Bytes := writeVarIntAux 5 (value % 2 ^ 32)

/-- MinecraftServerListener.varIntLength (server-listener.ts 300-311).  The
JS `&` operates on the 32-bit patterns; for value < 2^32 Nat.land on the
literal masks agrees with the JS test against 0. -/
def varIntLength (value : Nat) : Nat :=
  if value &&& 0xffffff80 = 0 then 1
  else if value &&& 0xffffc000 = 0 then 2
  else if value &&& 0xffe00000 = 0 then 3
  else if value &&& 0xf0000000 = 0 then 4
  else 5

end MCSM

/-- C2: parseBasicStats is total — for every buffer of length at least 5,
including every truncated buffer, the result is marked online and carries a
prefix of the fields (motd, gameType, map, numPlayers, maxPlayers, hostPort,
hostIp); no parse error reaches the caller. -/
theorem MCSM.parseBasicStats_total_online (data : MCSM.Bytes)
    (h : 5 ≤ data.length) :
    (MCSM.parseBasicStats data).online = true ∧
      MCSM.fieldsFormChain (MCSM.parseBasicStats data) := by
  unfold MCSM.parseBasicStats
  dsimp only
  split_ifs <;> simp [MCSM.fieldsFormChain]

/-- Witness for C2 at a concrete truncated buffer (header plus one
NUL-terminated field and a dangling byte). -/
theorem MCSM.parseBasicStats_total_online_witness :
    5 ≤ ([0, 0, 0, 0, 0, 65, 66, 0, 67] : MCSM.Bytes).length ∧
      ((MCSM.parseBasicStats [0, 0, 0, 0, 0, 65, 66, 0, 67]).online = true ∧
        MCSM.fieldsFormChain (MCSM.parseBasicStats [0, 0, 0, 0, 0, 65, 66, 0, 67])) :=
  ⟨by decide, MCSM.parseBasicStats_total_online [0, 0, 0, 0, 0, 65, 66, 0, 67] (by decide)⟩

namespace MCSM

/-- shouldPerformQuery never changes the status field. -/
theorem shouldPerformQuery_status_eq (m : StateMgr) (now : Nat) (r30 r50 : Bool) :
    (shouldPerformQuery m now r30 r50).2.state.status = m.state.status := by
  unfold shouldPerformQuery
  dsimp only
  repeat' split
  all_goals rfl

/-- shouldPerformQuery never changes the startTime field. -/
theorem shouldPerformQuery_startTime_eq (m : StateMgr) (now : Nat) (r30 r50 : Bool) :
    (shouldPerformQuery m now r30 r50).2.state.startTime = m.state.startTime := by
  unfold shouldPerformQuery
  dsimp only
  repeat' split
  all_goals rfl

/-- shouldPerformQuery never changes the stopTime field. -/
theorem shouldPerformQuery_stopTime_eq (m : StateMgr) (now : Nat) (r30 r50 : Bool) :
    (shouldPerformQuery m now r30 r50).2.state.stopTime = m.state.stopTime := by
  unfold shouldPerformQuery
  dsimp only
  repeat' split
  all_goals rfl

/-- Every status change made by processProbe is along an amended §4.2 edge. -/
theorem processProbe_status_edge (m : StateMgr) (probe : ProbeOutcome) (now : Nat) :
    (processProbe m probe now).1.state.status = m.state.status ∨
      amendedProbeEdge m.state.status (processProbe m probe now).1.state.status := by
  unfold processProbe
  dsimp only
  cases probe <;> dsimp only
  case ok stats =>
    repeat' split
    all_goals simp_all [amendedProbeEdge, claimedProbeEdge]
  case err =>
    repeat' split
    all_goals simp_all [amendedProbeEdge, claimedProbeEdge]

end MCSM

/-- C1: amended — every status change made by the polling check (checkState on
a probe result) is along one of the §4.2 edges offline→starting,
starting→online, starting→offline, online→stopping, online→offline,
stopping→offline, or the additional edge offline→online that the code takes
when a probe succeeds while the status is offline; and an explicit
setServerStatus call always lands exactly on the requested status (the
explicit-override edges). -/
theorem MCSM.status_transitions_follow_amended_edges (m : MCSM.StateMgr)
    (probe : MCSM.ProbeOutcome) (now : Nat) (r30 r50 : Bool)
    (target : MCSM.ServerStatus) :
    ((MCSM.checkState m probe now r30 r50).1.state.status = m.state.status ∨
      MCSM.amendedProbeEdge m.state.status
        (MCSM.checkState m probe now r30 r50).1.state.status) ∧
    (MCSM.setServerStatus m target now).1.state.status = target := by
  constructor
  · unfold MCSM.checkState
    dsimp only
    split
    · have h := MCSM.processProbe_status_edge
        (MCSM.shouldPerformQuery
          { m with state := { m.state with lastCheck := now } } now r30 r50).2
        probe now
      rw [MCSM.shouldPerformQuery_status_eq] at h
      exact h
    · left
      rw [MCSM.shouldPerformQuery_status_eq]
  · unfold MCSM.setServerStatus
    dsimp only
    split_ifs with h₁ <;> simp_all

/-- C1 counterexample: from the initial (offline) manager state, a successful
probe moves the status directly to online — an offline→online edge that the
claimed §4.2 edge list does not contain. -/
theorem MCSM.checkState_offline_to_online_counterexample :
    (MCSM.checkState MCSM.StateMgr.init (.ok { online := true }) 10000
        true true).1.state.status = MCSM.ServerStatus.online ∧
    MCSM.StateMgr.init.state.status = MCSM.ServerStatus.offline ∧
    ¬ MCSM.claimedProbeEdge MCSM.ServerStatus.offline MCSM.ServerStatus.online := by
  decide

/-- C5 (code bug): checkState resets consecutiveErrors to 0 on every query
promise that resolves — also one reporting the server offline — before the
online branch increments it, so after every failed probe the counter is 1 and
the confirmed online→offline transition (3 consecutive offline confirmations,
per the code's own comment and log message) can never fire: three consecutive
probes reporting offline leave the status online with the counter at 1. -/
theorem MCSM.online_offline_probes_never_confirm :
    (let m0 : MCSM.StateMgr := { state := { status := MCSM.ServerStatus.online } }
     let m1 := (MCSM.checkState m0 (.ok { online := false }) 10000 true true).1
     let m2 := (MCSM.checkState m1 (.ok { online := false }) 20000 true true).1
     let m3 := (MCSM.checkState m2 (.ok { online := false }) 30000 true true).1
     m1.state.status = MCSM.ServerStatus.online ∧
       m2.state.status = MCSM.ServerStatus.online ∧
       m3.state.status = MCSM.ServerStatus.online ∧
       m1.consecutiveErrors = 1 ∧ m2.consecutiveErrors = 1 ∧
       m3.consecutiveErrors = 1) := by
  decide

/-- C6 counterexample: with a 1-minute inactivity timeout and the server empty
since time 0, two consecutive zero-player polls past the threshold both emit
inactivityTimeout within one and the same empty period (emptyTime still the
same) — the event does not fire exactly once per empty period. -/
theorem MCSM.inactivityTimeout_fires_twice_counterexample :
    (let m0 : MCSM.StateMgr :=
      { state := { status := MCSM.ServerStatus.online, startTime := some 0,
                   emptyTime := some 0 },
        inactivityTimeoutMins := 1 }
     let r1 := MCSM.checkState m0 (.ok { online := true, numPlayers := some 0 })
       70000 true true
     let r2 := MCSM.checkState r1.1
       (.ok { online := true, numPlayers := some 0 }) 80000 true true
     MCSM.SMEvent.inactivityTimeout ∈ r1.2 ∧
       MCSM.SMEvent.inactivityTimeout ∈ r2.2 ∧
       r1.1.state.emptyTime = some 0 ∧ r2.1.state.emptyTime = some 0) := by
  decide

/-- C6 (amended): on a poll where the server stays empty (probe online with
zero players while emptyTime is already set), the inactivityTimeout event is
emitted exactly when the recomputed empty duration reaches the configured
threshold — on every such poll, hence at least once but not exactly once per
empty period. -/
theorem MCSM.inactivityTimeout_fires_on_each_threshold_poll
    (m : MCSM.StateMgr) (stats : MCSM.ServerStats) (now t : Nat)
    (hEmpty : m.state.emptyTime = some t) (hOnline : stats.online = true)
    (hZero : stats.numPlayers.getD 0 = 0) :
    MCSM.SMEvent.inactivityTimeout ∈ (MCSM.processProbe m (.ok stats) now).2 ↔
      0 < m.inactivityTimeoutMins ∧
        (m.inactivityTimeoutMins * 60 : Int) ≤ MCSM.floorDiffSec now t := by
  unfold MCSM.processProbe
  dsimp only
  rw [hOnline]
  simp only [hEmpty, hZero]
  repeat' split
  all_goals simp_all [List.mem_append]

/-- Witness for C6 at a concrete empty state one poll past the threshold. -/
theorem MCSM.inactivityTimeout_fires_on_each_threshold_poll_witness :
    (MCSM.SMEvent.inactivityTimeout ∈
      (MCSM.processProbe
        { state := { status := MCSM.ServerStatus.online, startTime := some 0,
                     emptyTime := some 0 },
          inactivityTimeoutMins := 1 }
        (.ok { online := true, numPlayers := some 0 }) 70000).2) ↔
      (0 < (1 : Nat) ∧ ((1 : Nat) * 60 : Int) ≤ MCSM.floorDiffSec 70000 0) :=
  MCSM.inactivityTimeout_fires_on_each_threshold_poll
    { state := { status := MCSM.ServerStatus.online, startTime := some 0,
                 emptyTime := some 0 },
      inactivityTimeoutMins := 1 }
    { online := true, numPlayers := some 0 } 70000 0 rfl rfl rfl

namespace MCSM

/-- processProbe assigns startTime only when it was unset and the probe moved
the status to online. -/
theorem processProbe_startTime (m : StateMgr) (probe : ProbeOutcome) (now : Nat) :
    (processProbe m probe now).1.state.startTime ≠ m.state.startTime →
      m.state.startTime = none ∧
        (processProbe m probe now).1.state.status = ServerStatus.online := by
  unfold processProbe
  dsimp only
  cases probe <;> dsimp only
  case ok stats =>
    cases hS : m.state.startTime <;> (repeat' split) <;> simp_all
  case err =>
    repeat' split
    all_goals simp_all

/-- processProbe assigns stopTime only on a transition into offline. -/
theorem processProbe_stopTime (m : StateMgr) (probe : ProbeOutcome) (now : Nat) :
    (processProbe m probe now).1.state.stopTime ≠ m.state.stopTime →
      (processProbe m probe now).1.state.status = ServerStatus.offline := by
  unfold processProbe
  dsimp only
  cases probe <;> dsimp only
  case ok stats =>
    repeat' split
    all_goals simp_all
  case err =>
    repeat' split
    all_goals simp_all

end MCSM

/-- C7 (amended): across setServerStatus and checkState steps, startTime is
assigned only on the explicit offline→starting transition or by a probe that
moves the status to online while startTime is unset; stopTime is given a
value only on transitions into stopping or offline (the explicit
offline→starting transition merely clears it to undefined). -/
theorem MCSM.timestamp_assignment_amended (m : MCSM.StateMgr)
    (target : MCSM.ServerStatus) (probe : MCSM.ProbeOutcome) (now : Nat)
    (r30 r50 : Bool) :
    ((MCSM.setServerStatus m target now).1.state.startTime ≠ m.state.startTime →
        m.state.status = MCSM.ServerStatus.offline ∧
          target = MCSM.ServerStatus.starting) ∧
    ((MCSM.setServerStatus m target now).1.state.stopTime ≠ m.state.stopTime →
        (MCSM.setServerStatus m target now).1.state.stopTime = none ∨
          (MCSM.setServerStatus m target now).1.state.status =
            MCSM.ServerStatus.stopping ∨
          (MCSM.setServerStatus m target now).1.state.status =
            MCSM.ServerStatus.offline) ∧
    ((MCSM.checkState m probe now r30 r50).1.state.startTime ≠ m.state.startTime →
        m.state.startTime = none ∧
          (MCSM.checkState m probe now r30 r50).1.state.status =
            MCSM.ServerStatus.online) ∧
    ((MCSM.checkState m probe now r30 r50).1.state.stopTime ≠ m.state.stopTime →
        (MCSM.checkState m probe now r30 r50).1.state.status =
          MCSM.ServerStatus.offline) := by
  refine ⟨?_, ?_, ?_, ?_⟩
  · unfold MCSM.setServerStatus
    dsimp only
    split_ifs <;> simp_all
  · unfold MCSM.setServerStatus
    dsimp only
    split_ifs <;> simp_all
  · unfold MCSM.checkState
    dsimp only
    split
    · have h := MCSM.processProbe_startTime
        (MCSM.shouldPerformQuery
          { m with state := { m.state with lastCheck := now } } now r30 r50).2
        probe now
      rw [MCSM.shouldPerformQuery_startTime_eq] at h
      exact h
    · rw [MCSM.shouldPerformQuery_startTime_eq]
      simp
  · unfold MCSM.checkState
    dsimp only
    split
    · have h := MCSM.processProbe_stopTime
        (MCSM.shouldPerformQuery
          { m with state := { m.state with lastCheck := now } } now r30 r50).2
        probe now
      rw [MCSM.shouldPerformQuery_stopTime_eq] at h
      exact h
    · rw [MCSM.shouldPerformQuery_stopTime_eq]
      simp

/-- Witness for C7: the inner hypotheses are dischargeable — at the initial
offline state a successful probe does change startTime, and the theorem then
yields that startTime was unset and the status moved to online. -/
theorem MCSM.timestamp_assignment_amended_witness :
    MCSM.StateMgr.init.state.startTime = none ∧
      (MCSM.checkState MCSM.StateMgr.init (.ok { online := true }) 10000 true
          true).1.state.status = MCSM.ServerStatus.online :=
  (MCSM.timestamp_assignment_amended MCSM.StateMgr.init
      MCSM.ServerStatus.starting (.ok { online := true }) 10000 true
      true).2.2.1 (by decide)

/-- C7 counterexample: from the initial state (status offline, startTime
unset), one successful probe — a step that is not the offline→starting
transition; the status moves offline→online — assigns startTime. -/
theorem MCSM.startTime_assigned_outside_offline_starting :
    (MCSM.checkState MCSM.StateMgr.init (.ok { online := true }) 10000 true
        true).1.state.startTime = some 10000 ∧
      MCSM.StateMgr.init.state.startTime = none ∧
      MCSM.StateMgr.init.state.status = MCSM.ServerStatus.offline ∧
      (MCSM.checkState MCSM.StateMgr.init (.ok { online := true }) 10000 true
          true).1.state.status = MCSM.ServerStatus.online := by
  decide

namespace MCSM

theorem createPacket_length (id ty : Nat) (body : Bytes) :
    (createPacket id ty body).length = body.length + 14 := by
  simp [createPacket, le4]

/-- Reading back the little-endian 4-byte field recovers the value. -/
theorem readUInt32LE_le4 (a : Nat) (rest : Bytes) (ha : a < 2 ^ 32) :
    readUInt32LE (le4 a ++ rest) 0 = a := by
  have h : readUInt32LE (le4 a ++ rest) 0 =
      a % 256 + 256 * (a / 256 % 256) + 65536 * (a / 65536 % 256) +
        16777216 * (a / 16777216 % 256) := rfl
  omega

theorem readInt32LE_le4 (a : Nat) (rest : Bytes) (ha : a < 2 ^ 31) :
    readInt32LE (le4 a ++ rest) 0 = a := by
  unfold readInt32LE
  rw [readUInt32LE_le4 a rest (by omega)]
  rw [if_pos ha]

theorem readInt32LE_at4 (a b : Nat) (rest : Bytes) :
    readInt32LE (le4 a ++ (le4 b ++ rest)) 4 = readInt32LE (le4 b ++ rest) 0 := by
  unfold readInt32LE readUInt32LE
  rw [show (le4 a ++ (le4 b ++ rest)).drop 4 = (le4 b ++ rest).drop 0 from rfl]

theorem readInt32LE_at8 (a b c : Nat) (rest : Bytes) :
    readInt32LE (le4 a ++ (le4 b ++ (le4 c ++ rest))) 8 =
      readInt32LE (le4 c ++ rest) 0 := by
  unfold readInt32LE readUInt32LE
  rw [show (le4 a ++ (le4 b ++ (le4 c ++ rest))).drop 8 = (le4 c ++ rest).drop 0 from rfl]

theorem drop12_createPacket (s i t : Nat) (body : Bytes) :
    (le4 s ++ (le4 i ++ (le4 t ++ (body ++ [0, 0])))).drop 12 = body ++ [0, 0] := rfl

/-- Round trip: feeding one well-formed encoded packet to handleResponse acts
exactly as the per-packet handler on its id, type and body. -/
theorem handleResponse_createPacket (st : PendingMap) (id ty : Nat)
    (body : Bytes) (hid : id < 2 ^ 31) (hty : ty < 2 ^ 31)
    (hL : body.length + 10 < 2 ^ 31) :
    handleResponse (createPacket id ty body) st =
      handlePacket st (id : Int) (ty : Int) body := by
  unfold handleResponse createPacket
  have hlen : (le4 (body.length + 10) ++ (le4 id ++ (le4 ty ++ (body ++ [0, 0])))).length
      = body.length + 14 := by simp [le4]
  rw [hlen]
  rw [handleResponseLoop]
  rw [hlen]
  rw [if_neg (by omega)]
  rw [readInt32LE_le4 _ _ (by omega)]
  rw [if_neg (by push_cast; omega)]
  dsimp only
  simp only [Nat.cast_zero, Nat.zero_add, zero_add]
  rw [readInt32LE_at4, readInt32LE_le4 _ _ hid]
  rw [readInt32LE_at8, readInt32LE_le4 _ _ hty]
  rw [drop12_createPacket]
  have hTake : ((4 : Int) + ((body.length + 10 : Nat) : Int) - 2 - 12).toNat
      = body.length := by push_cast; omega
  rw [hTake]
  rw [List.take_left]
  have hOff : ((4 : Int) + ((body.length + 10 : Nat) : Int)).toNat
      = body.length + 14 := by push_cast; omega
  rw [hOff]
  rw [show body.length + 14 = body.length + 13 + 1 from rfl]
  rw [handleResponseLoop]
  rw [hlen]
  rw [if_pos (by omega)]
  simp

/-- Folding nonempty same-id RESPONSE_VALUE fragments over the handler keeps
the exchange pending and appends each body in arrival order. -/
theorem deliverPackets_frag_fold (id : Nat) (hid : id < 2 ^ 31) :
    ∀ (frags : List Bytes) (acc : Bytes) (evs : List RconEvent),
      (∀ f ∈ frags, f ≠ [] ∧ f.length + 10 < 2 ^ 31) →
      (frags.map (createPacket id 0)).foldl
          (fun accp pkt =>
            ((handleResponse pkt accp.1).1, accp.2 ++ (handleResponse pkt accp.1).2))
          ([((id : Int), acc)], evs)
        = ([((id : Int), acc ++ frags.flatten)], evs)
  | [], acc, evs, _ => by simp
  | f :: fs, acc, evs, h => by
    have hf := h f (by simp)
    have hrec := deliverPackets_frag_fold id hid fs (acc ++ f) evs
      (fun g hg => h g (by simp [hg]))
    simp only [List.map_cons, List.foldl_cons]
    have hstep : ((handleResponse (createPacket id 0 f) [((id : Int), acc)]).1,
        evs ++ (handleResponse (createPacket id 0 f) [((id : Int), acc)]).2)
        = (([((id : Int), acc ++ f)], evs) : PendingMap × List RconEvent) := by
      rw [handleResponse_createPacket _ _ _ _ hid (by norm_num) (by omega)]
      unfold handlePacket
      have hcond : ¬(List.length f = 0 ∨ ((0 : Nat) : Int) = 2) := by
        push_neg
        refine ⟨fun hc => hf.1 (List.length_eq_zero.mp hc), by norm_num⟩
      simp [mapLookup, mapSet, hcond, hf.1]
    rw [hstep, hrec]
    simp

end MCSM

/-- C3: for every sequence of RESPONSE_VALUE packets carrying the same
request id, the response handler resolves the pending exchange (seeded with
an empty buffer by sendPacket, completing sendCommand) with the
in-arrival-order concatenation of all fragment bodies once the empty-body
terminator packet arrives — one resolution, not the first fragment only. -/
theorem MCSM.handleResponse_concatenates_fragments (id : Nat)
    (frags : List MCSM.Bytes) (hid : id < 2 ^ 31)
    (hfr : ∀ f ∈ frags, f ≠ [] ∧ f.length + 10 < 2 ^ 31) :
    MCSM.deliverPackets
        (frags.map (MCSM.createPacket id 0) ++ [MCSM.createPacket id 0 []])
        [((id : Int), [])]
      = ([], [MCSM.RconEvent.resolved id frags.flatten]) := by
  unfold MCSM.deliverPackets
  dsimp only
  rw [List.foldl_append]
  rw [MCSM.deliverPackets_frag_fold id hid frags [] [] hfr]
  simp only [List.foldl_cons, List.foldl_nil, List.nil_append]
  rw [MCSM.handleResponse_createPacket _ _ _ _ hid (by norm_num) (by norm_num)]
  unfold MCSM.handlePacket
  simp [MCSM.mapLookup, MCSM.mapErase]

/-- Witness for C3: three one-byte fragments and the terminator resolve with
the three bytes concatenated. -/
theorem MCSM.handleResponse_concatenates_fragments_witness :
    MCSM.deliverPackets
        (([[65], [66], [67]] : List MCSM.Bytes).map (MCSM.createPacket 7 0) ++
          [MCSM.createPacket 7 0 []])
        [((7 : Int), [])]
      = ([], [MCSM.RconEvent.resolved 7 ([[65], [66], [67]] : List MCSM.Bytes).flatten]) :=
  MCSM.handleResponse_concatenates_fragments 7 [[65], [66], [67]] (by decide)
    (by decide)

/-- C8: when the 10-second timeout of a pending RCON exchange fires, the
entry is removed from the pending map, and the exchange resolves with the
accumulated partial data when any exists, or rejects with the
command-timed-out error when the buffer is empty. -/
theorem MCSM.sendPacket_timeout_behavior (st : MCSM.PendingMap) (id : Int)
    (buf : MCSM.Bytes) (h : MCSM.mapLookup id st = some buf) :
    (MCSM.sendPacketTimeout st id).1 = MCSM.mapErase id st ∧
      (MCSM.sendPacketTimeout st id).2 =
        some (if buf.isEmpty then MCSM.TimeoutOutcome.rejectedTimedOut
          else MCSM.TimeoutOutcome.resolvedWithData buf) := by
  unfold MCSM.sendPacketTimeout
  rw [h]
  cases buf <;> simp

/-- Witness for C8 at a pending exchange holding one byte of partial data. -/
theorem MCSM.sendPacket_timeout_behavior_witness :
    ((MCSM.sendPacketTimeout [((3 : Int), [72])] 3).1 =
        MCSM.mapErase 3 [((3 : Int), [72])] ∧
      (MCSM.sendPacketTimeout [((3 : Int), [72])] 3).2 =
        some (if ([72] : MCSM.Bytes).isEmpty then
            MCSM.TimeoutOutcome.rejectedTimedOut
          else MCSM.TimeoutOutcome.resolvedWithData [72])) :=
  MCSM.sendPacket_timeout_behavior [((3 : Int), [72])] 3 [72] (by decide)

/-- C4 counterexample: stop() on a manager with no process but the
isShuttingDown flag still set returns success without the kill path, yet the
manager state is not unchanged — the early return clears isShuttingDown. -/
theorem MCSM.stop_state_change_counterexample :
    (MCSM.stop { serverProcess := none, isShuttingDown := true, tempFiles := [] } true).result = true ∧
      (MCSM.stop { serverProcess := none, isShuttingDown := true, tempFiles := [] } true).forceKilled = false ∧
      (MCSM.stop { serverProcess := none, isShuttingDown := true, tempFiles := [] } true).wroteStopCommand = false ∧
      (MCSM.stop { serverProcess := none, isShuttingDown := true, tempFiles := [] } true).st ≠
        { serverProcess := none, isShuttingDown := true, tempFiles := [] } := by
  decide

/-- C4 (amended): stop() with no running process returns true without writing
the stop command or entering any kill path, changing nothing except clearing
the isShuttingDown flag; start() while the process is running returns success
without spawning and with the state unchanged. -/
theorem MCSM.stop_start_idempotent_amended (s₁ s₂ : MCSM.PMState)
    (c dir us se je : Bool) (p : MCSM.Proc) (tf : Nat)
    (h₁ : MCSM.isRunning s₁ = false) (h₂ : MCSM.isRunning s₂ = true) :
    MCSM.stop s₁ c =
      { result := true, st := { s₁ with isShuttingDown := false },
        wroteStopCommand := false, forceKilled := false } ∧
    MCSM.start s₂ dir us se je p tf =
      { result := .ok true, st := s₂, spawned := false } := by
  constructor
  · unfold MCSM.stop
    rw [h₁]
    simp
  · unfold MCSM.start
    rw [h₂]
    simp

/-- Witness for C4 at a stopped manager with the flag set and a running one. -/
theorem MCSM.stop_start_idempotent_amended_witness :
    MCSM.stop { serverProcess := none, isShuttingDown := true, tempFiles := [] }
        true
      = { result := true,
          st := { serverProcess := none, isShuttingDown := false, tempFiles := [] },
          wroteStopCommand := false, forceKilled := false } ∧
    MCSM.start { serverProcess := some {} } true false true true {} 9
      = { result := .ok true, st := { serverProcess := some {} },
          spawned := false } :=
  MCSM.stop_start_idempotent_amended
    { serverProcess := none, isShuttingDown := true, tempFiles := [] }
    { serverProcess := some {} } true true false true true {} 9 (by decide)
    (by decide)

namespace MCSM

theorem and_himask_eq_zero_iff {K k v : Nat} (hkK : k ≤ K) (hv : v < 2 ^ K) :
    (v &&& (2 ^ K - 2 ^ k) = 0) ↔ v < 2 ^ k := by
  have hkpos : 0 < 2 ^ k := Nat.two_pow_pos k
  have hle : 2 ^ k ≤ 2 ^ K := Nat.pow_le_pow_right (by norm_num) hkK
  have hmaskbit : ∀ i : Nat,
      (2 ^ K - 2 ^ k).testBit i = (decide (i < K) && !decide (i < k)) := by
    intro i
    have h1 : 2 ^ K - 2 ^ k = 2 ^ K - ((2 ^ k - 1) + 1) := by omega
    rw [h1, Nat.testBit_two_pow_sub_succ (by omega)]
    rw [Nat.testBit_two_pow_sub_one]
  constructor
  · intro h
    by_contra hge
    push_neg at hge
    obtain ⟨i, hik, hbit⟩ := Nat.ge_two_pow_implies_high_bit_true hge
    have hiK : i < K := by
      by_contra hKi
      push_neg at hKi
      have h2 : 2 ^ K ≤ 2 ^ i := Nat.pow_le_pow_right (by norm_num) hKi
      have h3 : 2 ^ i ≤ v := Nat.testBit_implies_ge hbit
      omega
    have hz := congrArg (fun x => x.testBit i) h
    simp only [Nat.testBit_and, Nat.zero_testBit, hmaskbit] at hz
    rw [hbit] at hz
    simp [hiK] at hz
    omega
  · intro h
    apply Nat.eq_of_testBit_eq
    intro i
    simp only [Nat.testBit_and, Nat.zero_testBit, hmaskbit]
    rcases Nat.lt_or_ge i k with hik | hik
    · simp [hik]
    · have hvb : v.testBit i = false :=
        Nat.testBit_lt_two_pow
          (lt_of_lt_of_le h (Nat.pow_le_pow_right (by norm_num) hik))
      simp [hvb]

theorem varIntLength_eq (v : Nat) (hv : v < 2 ^ 32) :
    varIntLength v = if v < 128 then 1 else if v < 16384 then 2
      else if v < 2097152 then 3 else if v < 268435456 then 4 else 5 := by
  unfold varIntLength
  rw [show (0xffffff80 : Nat) = 2 ^ 32 - 2 ^ 7 by norm_num]
  rw [show (0xffffc000 : Nat) = 2 ^ 32 - 2 ^ 14 by norm_num]
  rw [show (0xffe00000 : Nat) = 2 ^ 32 - 2 ^ 21 by norm_num]
  rw [show (0xf0000000 : Nat) = 2 ^ 32 - 2 ^ 28 by norm_num]
  simp only [and_himask_eq_zero_iff (by norm_num : (7 : Nat) ≤ 32) hv,
    and_himask_eq_zero_iff (by norm_num : (14 : Nat) ≤ 32) hv,
    and_himask_eq_zero_iff (by norm_num : (21 : Nat) ≤ 32) hv,
    and_himask_eq_zero_iff (by norm_num : (28 : Nat) ≤ 32) hv]
  norm_num

theorem writeVarIntAux_small (fuel v : Nat) (h : v < 128) :
    writeVarIntAux (fuel + 1) v = [v] := by
  simp [writeVarIntAux, Nat.div_eq_of_lt h, Nat.mod_eq_of_lt h]

theorem writeVarIntAux_step (fuel v : Nat) (h : 128 ≤ v) :
    writeVarIntAux (fuel + 1) v = (v % 128 + 128) :: writeVarIntAux fuel (v / 128) := by
  simp only [writeVarIntAux]
  rw [if_neg (by omega)]

end MCSM

/-- C10: for every nonnegative value representable in 32 bits, writeVarInt
writes exactly varIntLength(value) bytes, with the continuation bit 0x80 set
on every written byte except the last (which stays below 0x80), so the
offsets the modern-ping response builder computes with varIntLength agree
with the bytes writeVarInt actually writes. -/
theorem MCSM.writeVarInt_agrees_varIntLength (v : Nat) (hv : v < 2 ^ 32) :
    (MCSM.writeVarInt v).length = MCSM.varIntLength v ∧
      (∀ i, i + 1 < (MCSM.writeVarInt v).length →
        128 ≤ (MCSM.writeVarInt v).getD i 0) ∧
      (MCSM.writeVarInt v).getD ((MCSM.writeVarInt v).length - 1) 0 < 128 := by
  have hm : v % 2 ^ 32 = v := Nat.mod_eq_of_lt hv
  rw [MCSM.varIntLength_eq v hv]
  unfold MCSM.writeVarInt
  rw [hm]
  by_cases h1 : v < 128
  · rw [MCSM.writeVarIntAux_small 4 v h1]
    refine ⟨by simp [h1], ?_, ?_⟩
    · intro i hi
      simp at hi
    · simpa using h1
  · by_cases h2 : v < 16384
    · rw [MCSM.writeVarIntAux_step 4 v (by omega),
        MCSM.writeVarIntAux_small 3 (v / 128) (by omega)]
      refine ⟨by simp [h1, h2], ?_, ?_⟩
      · intro i hi
        simp at hi
        rcases i with _ | i
        · simp
        · omega
      · simp
        omega
    · by_cases h3 : v < 2097152
      · rw [MCSM.writeVarIntAux_step 4 v (by omega),
          MCSM.writeVarIntAux_step 3 (v / 128) (by omega),
          MCSM.writeVarIntAux_small 2 (v / 128 / 128) (by omega)]
        refine ⟨by simp [h1, h2, h3], ?_, ?_⟩
        · intro i hi
          simp at hi
          rcases i with _ | i
          · simp
          · rcases i with _ | i
            · simp [List.getD]
            · omega
        · simp [List.getD]
          omega
      · by_cases h4 : v < 268435456
        · rw [MCSM.writeVarIntAux_step 4 v (by omega),
            MCSM.writeVarIntAux_step 3 (v / 128) (by omega),
            MCSM.writeVarIntAux_step 2 (v / 128 / 128) (by omega),
            MCSM.writeVarIntAux_small 1 (v / 128 / 128 / 128) (by omega)]
          refine ⟨by simp [h1, h2, h3, h4], ?_, ?_⟩
          · intro i hi
            simp at hi
            rcases i with _ | i
            · simp
            · rcases i with _ | i
              · simp [List.getD]
              · rcases i with _ | i
                · simp [List.getD]
                · omega
          · simp [List.getD]
            omega
        · rw [MCSM.writeVarIntAux_step 4 v (by omega),
            MCSM.writeVarIntAux_step 3 (v / 128) (by omega),
            MCSM.writeVarIntAux_step 2 (v / 128 / 128) (by omega),
            MCSM.writeVarIntAux_step 1 (v / 128 / 128 / 128) (by omega),
            MCSM.writeVarIntAux_small 0 (v / 128 / 128 / 128 / 128) (by omega)]
          refine ⟨by simp [h1, h2, h3, h4], ?_, ?_⟩
          · intro i hi
            simp at hi
            rcases i with _ | i
            · simp
            · rcases i with _ | i
              · simp [List.getD]
              · rcases i with _ | i
                · simp [List.getD]
                · rcases i with _ | i
                  · simp [List.getD]
                  · omega
          · simp [List.getD]
            omega

/-- Witness for C10 at the two-byte value 300. -/
theorem MCSM.writeVarInt_agrees_varIntLength_witness :
    (MCSM.writeVarInt 300).length = MCSM.varIntLength 300 :=
  (MCSM.writeVarInt_agrees_varIntLength 300 (by norm_num)).1

namespace MCSM

/-- Writing UTF-16LE units into the zero tail of a buffer produces the
units' bytes followed by the remaining zeros. -/
theorem writeUnitsLE_append (units : UStr) (pre : Bytes) (m off : Nat)
    (hoff : off = pre.length) (hm : 2 * units.length ≤ m) :
    writeUnitsLE (pre ++ List.replicate m 0) units off
      = pre ++ (utf16leBytes units ++ List.replicate (m - 2 * units.length) 0) := by
  induction units generalizing pre m off with
  | nil => simp [writeUnitsLE, utf16leBytes]
  | cons u us ih =>
    subst hoff
    have hm' : 2 * us.length + 2 ≤ m := by
      simp only [List.length_cons] at hm
      omega
    have hrep : List.replicate m (0 : Nat) = 0 :: 0 :: List.replicate (m - 2) 0 := by
      have h2 : m = 2 + (m - 2) := by omega
      calc List.replicate m (0 : Nat)
          = List.replicate (2 + (m - 2)) (0 : Nat) := by rw [← h2]
        _ = List.replicate 2 (0 : Nat) ++ List.replicate (m - 2) (0 : Nat) := by
            rw [List.replicate_add]
        _ = 0 :: 0 :: List.replicate (m - 2) (0 : Nat) := rfl
    rw [hrep]
    simp only [writeUnitsLE]
    rw [List.set_append_right _ _ (by omega)]
    rw [Nat.sub_self]
    rw [List.set_append_right _ _ (by omega)]
    rw [Nat.add_sub_cancel_left]
    simp only [List.set]
    have hsplit : pre ++ u % 256 :: u / 256 % 256 :: List.replicate (m - 2) 0
        = (pre ++ [u % 256, u / 256 % 256]) ++ List.replicate (m - 2) 0 := by
      simp
    rw [hsplit]
    rw [ih (pre ++ [u % 256, u / 256 % 256]) (m - 2) (pre.length + 2)
      (by simp) (by omega)]
    have hlen : m - 2 - 2 * us.length = m - 2 * (u :: us).length := by
      simp only [List.length_cons]
      omega
    rw [hlen]
    simp [utf16leBytes]

/-- The legacy-ping buffer construction, for an arbitrary response string. -/
theorem legacyPingBuffer_eq (r : UStr) :
    bufWriteUtf16le (bufWriteU16BE (bufWriteU8 (bufAlloc (r.length + 3)) 0xFF 0) r.length 1) r 3
      = 0xFF :: (r.length / 256 % 256) :: (r.length % 256) ::
        (utf16leBytes (r.take (r.length / 2)) ++ List.replicate (r.length % 2) 0) := by
  have halloc : bufAlloc (r.length + 3) = [0, 0, 0] ++ List.replicate r.length (0 : Nat) := by
    unfold bufAlloc
    have h3 : r.length + 3 = 3 + r.length := by omega
    calc List.replicate (r.length + 3) (0 : Nat)
        = List.replicate (3 + r.length) (0 : Nat) := by rw [h3]
      _ = List.replicate 3 (0 : Nat) ++ List.replicate r.length (0 : Nat) := by
          rw [List.replicate_add]
      _ = [0, 0, 0] ++ List.replicate r.length (0 : Nat) := rfl
  unfold bufWriteUtf16le bufWriteU16BE bufWriteU8
  rw [halloc]
  rw [List.set_append_left _ _ (by simp)]
  rw [List.set_append_left _ _ (by simp)]
  rw [List.set_append_left _ _ (by simp)]
  simp only [List.set]
  have hblen : (([0xFF, r.length / 256 % 256, r.length % 256] : Bytes) ++
      List.replicate r.length 0).length = r.length + 3 := by
    simp
  rw [hblen]
  have htk : (r.length + 3 - 3) / 2 = r.length / 2 := by omega
  rw [htk]
  rw [writeUnitsLE_append (r.take (r.length / 2))
    [0xFF, r.length / 256 % 256, r.length % 256] r.length 3 (by simp) (by
      simp only [List.length_take]
      omega)]
  have hrem : r.length - 2 * (r.take (r.length / 2)).length = r.length % 2 := by
    simp only [List.length_take]
    omega
  rw [hrem]
  simp

end MCSM

/-- C9 (amended): the legacy-ping response is the byte 0xFF, a 2-byte
big-endian count of UTF-16 code units of the response string — the six fields
(prefix, protocol version, server version, MOTD, current players, max
players) joined by the NUL character, not the pipe — followed by the UTF-16LE
encoding of only the first half of that string: the buffer is allocated with
length + 3 bytes, so Buffer.write truncates the payload to the code units
that fit, leaving one zero pad byte when the length is odd. -/
theorem MCSM.handleLegacyPing_bytes (version motd : MCSM.UStr) (maxPlayers : Nat) :
    MCSM.handleLegacyPing version motd maxPlayers
      = 0xFF :: ((MCSM.legacyResponseString version motd maxPlayers).length / 256 % 256) ::
        ((MCSM.legacyResponseString version motd maxPlayers).length % 256) ::
        (MCSM.utf16leBytes ((MCSM.legacyResponseString version motd maxPlayers).take
            ((MCSM.legacyResponseString version motd maxPlayers).length / 2)) ++
          List.replicate ((MCSM.legacyResponseString version motd maxPlayers).length % 2) 0) := by
  unfold MCSM.handleLegacyPing
  exact MCSM.legacyPingBuffer_eq _

/-- C9 counterexample: at version A, MOTD B and two max players the bytes the
code writes differ from the claimed 0xFF + big-endian length + UTF-16LE
pipe-joined payload. -/
theorem MCSM.legacy_ping_differs_from_claim :
    MCSM.handleLegacyPing [65] [66] 2 ≠ MCSM.claimedLegacyPingResponse [65] [66] 2 := by
  decide
